import Mathlib

/-!
Shallow embedding of the staged-import reconciliation pipeline of
`app_crud_fatec.py` (tables `clientes`, `pedidos`, `dados_importados`,
`temp_clientes`, `temp_pedidos`, `logs`; operations `_find_data_in_json`,
`ui_processar_dados_importados` (staging), `ui_confirmar_dados_processados`
(promotion: listing guard plus the `confirmar_lote` transaction),
`log_evento`).

The database is modelled as explicit lists of rows; each transactional UI
operation becomes a pure function from a database state (plus the operator's
input) to a new database state and a result.  A statement that raises inside
the transaction makes the whole operation return the *original* state,
mirroring `con.rollback()`; a committed run returns the updated state,
mirroring `con.commit()`.  JSON documents are modelled by an inductive type;
Python `dict` values become association lists (keys unique in any real
document; lookups take the first match, as `dict` access does).  SQL column
values of unexpected runtime type are modelled as insertion errors, like the
database adapter's errors; all such errors are indistinguishable to the
caller, which only sees the rolled-back transaction.
-/

namespace CrudFatec

/-- JSON values, as produced by `json.load` / stored in the `JSONB` column.
Numbers are modelled as integers (no claim depends on fractional values). -/
inductive Json where
  | null : Json
  | bool (b : Bool) : Json
  | num (n : Int) : Json
  | str (s : String) : Json
  | arr (elems : List Json) : Json
  | obj (fields : List (String × Json)) : Json

/-- Python `key in d` on a dict. -/
def hasKey (d : List (String × Json)) (k : String) : Bool :=
  d.any (fun p => p.1 == k)

/-- Python `d[key]` on a dict (`none` when the key is absent). -/
def lookupKey (d : List (String × Json)) (k : String) : Option Json :=
  (d.find? (fun p => p.1 == k)).map (fun p => p.2)

/-- Python `d.get(key)`: `none` when the key is absent *or* its value is JSON
null (both become Python `None`, hence SQL `NULL`). -/
def jget (d : List (String × Json)) (k : String) : Option Json :=
  match lookupKey d k with
  | some Json.null => none
  | some v => some v
  | none => none

/-- Python `key in d and isinstance(d[key], list)` followed by iteration:
the list of candidate entity objects under `k`, `[]` when absent or not a
list (the source then skips the whole loop). -/
def jgetList (d : List (String × Json)) (k : String) : List Json :=
  match lookupKey d k with
  | some (Json.arr l) => l
  | _ => []

/-- `_find_data_in_json`: look for the `clientes` / `pedidos` collections at
the document root; failing that, inside a `record` wrapper key whose value is
an object; otherwise return an empty dict. -/
def find_data_in_json (d : List (String × Json)) : List (String × Json) :=
  if hasKey d "clientes" || hasKey d "pedidos" then d
  else
    match lookupKey d "record" with
    | some (Json.obj inner) => inner
    | _ => []

/-- Row of `clientes` (`id PK, nome NOT NULL, email UNIQUE NOT NULL,
telefone NULL`). -/
structure Cliente where
  id : Int
  nome : String
  email : String
  telefone : Option String
deriving DecidableEq

/-- Row of `pedidos` (`id PK, cliente_id FK clientes, data_pedido NOT NULL,
item NULL, valor NULL`). -/
structure Pedido where
  id : Int
  cliente_id : Option Int
  data_pedido : String
  item : Option String
  valor : Option Int
deriving DecidableEq

/-- Row of `dados_importados` (`id PK, dado_json JSONB, status`). -/
structure RawImport where
  id : Int
  dado_json : Json
  status : String

/-- Row of `temp_clientes` (`PK (batch_id, id)`, `nome`/`email` NOT NULL). -/
structure TempCliente where
  batch_id : Int
  id : Int
  nome : String
  email : String
  telefone : Option String
deriving DecidableEq

/-- Row of `temp_pedidos` (`PK (batch_id, id)`, other columns nullable). -/
structure TempPedido where
  batch_id : Int
  id : Int
  cliente_id : Option Int
  data_pedido : Option String
  item : Option String
  valor : Option Int
deriving DecidableEq

/-- Row of `logs` (timestamp and serial id omitted; no claim reads them). -/
structure LogEntry where
  level : String
  message : String
deriving DecidableEq

/-- The relational store. -/
structure DB where
  clientes : List Cliente
  pedidos : List Pedido
  dados_importados : List RawImport
  temp_clientes : List TempCliente
  temp_pedidos : List TempPedido

/-- An optional INTEGER column value taken from `obj.get(k)`: absent/null is
SQL `NULL`; a non-numeric value makes the INSERT raise. -/
def optInt (v : Option Json) : Except String (Option Int) :=
  match v with
  | none => .ok none
  | some (Json.num i) => .ok (some i)
  | some _ => .error "DataError: invalid input for integer column"

/-- An optional text-like column value taken from `obj.get(k)`. -/
def optStr (v : Option Json) : Except String (Option String) :=
  match v with
  | none => .ok none
  | some (Json.str s) => .ok (some s)
  | some _ => .error "DataError: invalid input for text column"

/-- One `INSERT INTO temp_clientes` parameter row built from a candidate
customer object: `(batch_id, cliente.get('id'), cliente.get('nome'),
cliente.get('email'), cliente.get('telefone'))`.  A missing/null `id`,
`nome` or `email` violates a NOT NULL (or PK) constraint of `temp_clientes`
and raises; a non-object candidate raises (`.get` on a non-dict). -/
def candClienteRow (b : Int) (j : Json) : Except String TempCliente :=
  match j with
  | Json.obj f =>
    match jget f "id" with
    | some (Json.num i) =>
      match jget f "nome" with
      | some (Json.str nm) =>
        match jget f "email" with
        | some (Json.str em) =>
          match optStr (jget f "telefone") with
          | .ok tel => .ok { batch_id := b, id := i, nome := nm, email := em, telefone := tel }
          | .error e => .error e
        | some _ => .error "DataError: email"
        | none => .error "NotNullViolation: email"
      | some _ => .error "DataError: nome"
      | none => .error "NotNullViolation: nome"
    | some _ => .error "DataError: id"
    | none => .error "NotNullViolation: id"
  | _ => .error "AttributeError: candidate is not an object"

/-- One `INSERT INTO temp_pedidos` parameter row built from a candidate order
object; only `id` (PK) is NOT NULL. -/
def candPedidoRow (b : Int) (j : Json) : Except String TempPedido :=
  match j with
  | Json.obj f =>
    match jget f "id" with
    | some (Json.num i) =>
      match optInt (jget f "cliente_id") with
      | .error e => .error e
      | .ok cid =>
        match optStr (jget f "data_pedido") with
        | .error e => .error e
        | .ok dp =>
          match optStr (jget f "item") with
          | .error e => .error e
          | .ok it =>
            match optInt (jget f "valor") with
            | .error e => .error e
            | .ok vl =>
              .ok { batch_id := b, id := i, cliente_id := cid, data_pedido := dp,
                    item := it, valor := vl }
    | some _ => .error "DataError: id"
    | none => .error "NotNullViolation: id"
  | _ => .error "AttributeError: candidate is not an object"

/-- The staging `for` loop shared by the customer and the order pass: for
each candidate object build the parameter row and execute
`INSERT ... ON CONFLICT DO NOTHING` against the accumulated table, counting
`cur.rowcount` (1 for an inserted row, 0 for a skipped duplicate of the
`(batch_id, id)` key).  A raised insert aborts the loop. -/
def stageLoop {α : Type} (bkey ikey : α → Int) (mk : Json → Except String α) :
    List Json → List α → Nat → Except String (List α × Nat)
  | [], acc, n => .ok (acc, n)
  | j :: js, acc, n =>
    match mk j with
    | .error e => .error e
    | .ok row =>
      if acc.any (fun s => bkey s == bkey row && ikey s == ikey row) then
        stageLoop bkey ikey mk js acc n
      else
        stageLoop bkey ikey mk js (acc ++ [row]) (n + 1)

/-- Result of one confirmed staging attempt in
`ui_processar_dados_importados`. -/
inductive StageResult where
  | notFound : StageResult
  | wrongStatus (st : String) : StageResult
  | valueError : StageResult
  | exceptionRollback : StageResult
  | ok (numClientes numPedidos : Nat) : StageResult
deriving DecidableEq

/-- `ui_processar_dados_importados`, the operator-confirmed path for one
chosen record id: fetch the `dados_importados` row (`notFound` when absent),
reject unless its status is `NOVO`, locate the collections
(`_find_data_in_json`; an empty result raises `ValueError`, caught before
any statement ran), then in one transaction delete the batch's old staged
rows, stage the customer and order candidates, and set the status to
`EM_CONFIRMACAO`.  Any raise inside the transaction rolls everything back
(`exceptionRollback`). -/
def ui_processar_dados_importados (db : DB) (id_registro : Int) : DB × StageResult :=
  match db.dados_importados.find? (fun r => r.id == id_registro) with
  | none => (db, .notFound)
  | some reg =>
    if reg.status ≠ "NOVO" then (db, .wrongStatus reg.status)
    else
      match reg.dado_json with
      | Json.obj doc =>
        if (find_data_in_json doc).isEmpty then (db, .valueError)
        else
          match stageLoop (fun r => r.batch_id) (fun r => r.id) (candClienteRow id_registro)
              (jgetList (find_data_in_json doc) "clientes")
              (db.temp_clientes.filter (fun r => !(r.batch_id == id_registro))) 0 with
          | .error _ => (db, .exceptionRollback)
          | .ok (tc1, nc) =>
            match stageLoop (fun r => r.batch_id) (fun r => r.id) (candPedidoRow id_registro)
                (jgetList (find_data_in_json doc) "pedidos")
                (db.temp_pedidos.filter (fun r => !(r.batch_id == id_registro))) 0 with
            | .error _ => (db, .exceptionRollback)
            | .ok (tp1, np) =>
              ({ db with
                  temp_clientes := tc1,
                  temp_pedidos := tp1,
                  dados_importados := db.dados_importados.map (fun r =>
                    if r.id == id_registro then { r with status := "EM_CONFIRMACAO" } else r) },
               .ok nc np)
      | _ => (db, .exceptionRollback)

/-- Step 1 of promotion: `INSERT INTO clientes ... SELECT ... FROM
temp_clientes WHERE batch_id = %s ON CONFLICT (id) DO NOTHING`.  A row whose
`id` already exists is skipped by the arbiter index; a row with a fresh `id`
but an already-used `email` violates the `UNIQUE(email)` constraint and
raises. `cur.rowcount` counts the rows actually inserted. -/
def insertClientesLoop : List TempCliente → List Cliente → Nat → Except String (List Cliente × Nat)
  | [], cl, n => .ok (cl, n)
  | r :: rs, cl, n =>
    if cl.any (fun c => c.id == r.id) then insertClientesLoop rs cl n
    else if cl.any (fun c => c.email == r.email) then
      .error "UniqueViolation: clientes.email"
    else
      insertClientesLoop rs
        (cl ++ [{ id := r.id, nome := r.nome, email := r.email, telefone := r.telefone }]) (n + 1)

/-- Step 2 of promotion: `INSERT INTO pedidos ... SELECT ... FROM
temp_pedidos tp JOIN clientes c ON tp.cliente_id = c.id WHERE tp.batch_id =
%s ON CONFLICT (id) DO NOTHING`, executed after step 1, so `cl` is the
customer table *including* the customers just promoted.  Rows whose
`cliente_id` matches no customer (or is NULL) simply fall out of the join;
a joined row with a NULL `data_pedido` violates `pedidos.data_pedido NOT
NULL` and raises. -/
def insertPedidosLoop (cl : List Cliente) :
    List TempPedido → List Pedido → Nat → Except String (List Pedido × Nat)
  | [], pd, n => .ok (pd, n)
  | r :: rs, pd, n =>
    match r.cliente_id with
    | none => insertPedidosLoop cl rs pd n
    | some cid =>
      if cl.any (fun c => c.id == cid) then
        if pd.any (fun p => p.id == r.id) then insertPedidosLoop cl rs pd n
        else
          match r.data_pedido with
          | none => .error "NotNullViolation: pedidos.data_pedido"
          | some dp =>
            insertPedidosLoop cl rs
              (pd ++ [{ id := r.id, cliente_id := some cid, data_pedido := dp,
                        item := r.item, valor := r.valor }]) (n + 1)
      else insertPedidosLoop cl rs pd n

/-- The join condition of promotion step 2, as a predicate on one staged
order row: its `cliente_id` is non-NULL and matches a row of the given
customer table. -/
def resolvesCliente (cl : List Cliente) (r : TempPedido) : Bool :=
  match r.cliente_id with
  | some cid => cl.any (fun c => c.id == cid)
  | none => false

/-- Result of one promotion attempt. -/
inductive PromoteResult where
  | nothingWaiting : PromoteResult
  | rolledBack : PromoteResult
  | ok (numClientes numPedidos : Nat) : PromoteResult
deriving DecidableEq

/-- The promotion transaction — the `confirmacao == 'S'` body of
`ui_confirmar_dados_processados` — for one typed batch id: in one
transaction insert the batch's staged customers (skip-if-id-exists), insert
its staged orders whose `cliente_id` joins to a customer existing after step
1, delete the batch's staged rows, and set the `dados_importados` status to
`PROCESSADO`.  This body performs no check on the typed id or on the
record's current status.  Any raise rolls the whole transaction back. -/
def confirmar_lote (db : DB) (id_lote : Int) : DB × PromoteResult :=
  match insertClientesLoop (db.temp_clientes.filter (fun r => r.batch_id == id_lote))
      db.clientes 0 with
  | .error _ => (db, .rolledBack)
  | .ok (cl1, nc) =>
    match insertPedidosLoop cl1 (db.temp_pedidos.filter (fun r => r.batch_id == id_lote))
        db.pedidos 0 with
    | .error _ => (db, .rolledBack)
    | .ok (pd1, np) =>
      ({ clientes := cl1,
         pedidos := pd1,
         dados_importados := db.dados_importados.map (fun r =>
           if r.id == id_lote then { r with status := "PROCESSADO" } else r),
         temp_clientes := db.temp_clientes.filter (fun r => !(r.batch_id == id_lote)),
         temp_pedidos := db.temp_pedidos.filter (fun r => !(r.batch_id == id_lote)) },
       .ok nc np)

/-- `ui_confirmar_dados_processados`, one operator-confirmed promotion
attempt: the menu first lists the `dados_importados` records whose status is
`EM_CONFIRMACAO`; when there are none it prints that nothing awaits
confirmation and returns before any batch id can be typed.  Otherwise the
operator types a batch id — which the source never validates against the
listing or checks the status of — confirms, and the promotion transaction
`confirmar_lote` runs. -/
def ui_confirmar_dados_processados (db : DB) (id_lote : Int) : DB × PromoteResult :=
  if (db.dados_importados.filter (fun r => r.status == "EM_CONFIRMACAO")).isEmpty then
    (db, .nothingWaiting)
  else
    confirmar_lote db id_lote

/-- What a `log_evento` call reports: the row was committed, or the failure
was caught and printed to the console fallback. -/
inductive LogOutcome where
  | committed : LogOutcome
  | fallbackPrinted (err : String) : LogOutcome
deriving DecidableEq

/-- The fallible body of `log_evento`: `INSERT INTO logs (level, message)`
plus commit, which raises when the store is unavailable. -/
def insertLog (storeAvailable : Bool) (logs : List LogEntry) (e : LogEntry) :
    Except String (List LogEntry) :=
  if storeAvailable then .ok (logs ++ [e]) else .error "store unavailable"

/-- `log_evento`: try to append `(level.upper(), message)`; any exception is
caught inside the function and printed as `CRITICAL LOGGING ERROR`, never
propagated to the caller. -/
def log_evento (storeAvailable : Bool) (logs : List LogEntry) (level message : String) :
    List LogEntry × LogOutcome :=
  match insertLog storeAvailable logs { level := level.toUpper, message := message } with
  | .ok l => (l, .committed)
  | .error e => (logs, .fallbackPrinted e)

/-! Concrete database states used to exercise the theorems below. -/

/-- A batch in review: one pre-existing customer (id 5), one staged customer
(id 1) and three staged orders, referencing the staged customer (id 1), a
non-existent customer (id 99) and the pre-existing customer (id 5). -/
def dbC1 : DB :=
  { clientes := [⟨5, "E", "e", none⟩], pedidos := [],
    dados_importados := [⟨1, Json.null, "EM_CONFIRMACAO"⟩],
    temp_clientes := [⟨1, 1, "A", "a", none⟩],
    temp_pedidos := [⟨1, 10, some 1, some "2024-01-01", none, none⟩,
                     ⟨1, 11, some 99, some "2024-01-01", none, none⟩,
                     ⟨1, 12, some 5, some "2024-01-01", none, none⟩] }

/-- Two raw imports and no staged rows: record 1 is still `NOVO`, record 2
is in review (`EM_CONFIRMACAO`), so the confirmation menu shows a listing
and lets the operator type a batch id. -/
def dbC2 : DB :=
  ⟨[], [], [⟨1, Json.null, "NOVO"⟩, ⟨2, Json.null, "EM_CONFIRMACAO"⟩], [], []⟩

/-- A raw import already in status `PROCESSADO`. -/
def dbC2g : DB := ⟨[], [], [⟨1, Json.null, "PROCESSADO"⟩], [], []⟩

/-- A batch in review with one staged customer and one staged order. -/
def dbC3 : DB :=
  ⟨[], [], [⟨1, Json.null, "EM_CONFIRMACAO"⟩], [⟨1, 1, "A", "a", none⟩],
   [⟨1, 10, some 1, some "2024-01-01", none, none⟩]⟩

/-- A well-formed candidate customer object with id 1. -/
def cliA : Json := Json.obj [("id", Json.num 1), ("nome", Json.str "A"), ("email", Json.str "a")]

/-- A second candidate customer object declaring the same id 1. -/
def cliB : Json := Json.obj [("id", Json.num 1), ("nome", Json.str "B"), ("email", Json.str "b")]

/-- A fresh raw import whose document holds one candidate customer. -/
def dbC4 : DB := ⟨[], [], [⟨1, Json.obj [("clientes", Json.arr [cliA])], "NOVO"⟩], [], []⟩

/-- A fresh raw import whose document nests a wrapper object that contains
neither collection. -/
def dbC5 : DB := ⟨[], [], [⟨1, Json.obj [("record", Json.obj [("foo", Json.num 1)])], "NOVO"⟩], [], []⟩

/-- A fresh raw import whose document contains no collection and no wrapper. -/
def dbC5w : DB := ⟨[], [], [⟨1, Json.obj [("foo", Json.num 1)], "NOVO"⟩], [], []⟩

/-- A fresh raw import whose customer collection holds a non-object entry,
which makes the staging loop raise. -/
def dbC6 : DB := ⟨[], [], [⟨1, Json.obj [("clientes", Json.arr [Json.num 5])], "NOVO"⟩], [], []⟩

/-- A fresh raw import with two candidate customers declaring the same id. -/
def dbC8 : DB := ⟨[], [], [⟨1, Json.obj [("clientes", Json.arr [cliA, cliB])], "NOVO"⟩], [], []⟩

/-- A fresh raw import whose single candidate customer is missing its `id`
and `email` fields. -/
def dbC10 : DB :=
  ⟨[], [], [⟨1, Json.obj [("clientes", Json.arr [Json.obj [("nome", Json.str "A")]])], "NOVO"⟩],
   [], []⟩

/-! General lemmas about the staging and promotion loops. -/

theorem stageLoop_ok_spec {α : Type} (bkey ikey : α → Int) (mk : Json → Except String α) :
    ∀ (js : List Json) (acc : List α) (n : Nat) (res : List α) (nfin : Nat),
      stageLoop bkey ikey mk js acc n = .ok (res, nfin) →
      ∃ extra, res = acc ++ extra ∧ nfin = n + extra.length ∧
        (∀ r ∈ extra, ∃ j ∈ js, mk j = .ok r) ∧
        List.Pairwise (fun a b => bkey a ≠ bkey b ∨ ikey a ≠ ikey b) extra ∧
        (∀ r ∈ extra, ∀ s ∈ acc, bkey s ≠ bkey r ∨ ikey s ≠ ikey r) := by
  intro js
  induction js with
  | nil =>
    intro acc n res nfin h
    simp only [stageLoop, Except.ok.injEq, Prod.mk.injEq] at h
    obtain ⟨h1, h2⟩ := h
    subst h1; subst h2
    exact ⟨[], by simp, by simp, by simp, by simp, by simp⟩
  | cons j js ih =>
    intro acc n res nfin h
    simp only [stageLoop] at h
    split at h
    · simp at h
    · rename_i row hmk
      split at h
      · rename_i hconf
        obtain ⟨extra, he, hn, hm, hp, hkey⟩ := ih _ _ _ _ h
        refine ⟨extra, he, hn, ?_, hp, hkey⟩
        intro r hr
        obtain ⟨j', hj', hmk'⟩ := hm r hr
        exact ⟨j', List.mem_cons_of_mem _ hj', hmk'⟩
      · rename_i hconf
        obtain ⟨extra, he, hn, hm, hp, hkey⟩ := ih _ _ _ _ h
        refine ⟨row :: extra, ?_, ?_, ?_, ?_, ?_⟩
        · rw [he]; simp
        · rw [hn]; simp; omega
        · intro r hr
          rcases List.mem_cons.mp hr with rfl | hr'
          · exact ⟨j, List.mem_cons_self _ _, hmk⟩
          · obtain ⟨j', hj', hmk'⟩ := hm r hr'
            exact ⟨j', List.mem_cons_of_mem _ hj', hmk'⟩
        · refine List.pairwise_cons.mpr ⟨?_, hp⟩
          intro b hb
          exact hkey b hb row (by simp)
        · intro r hr s hs
          rcases List.mem_cons.mp hr with rfl | hr'
          · have hfa : ¬((bkey s == bkey r && ikey s == ikey r) = true) := by
              intro hxx
              exact hconf (List.any_eq_true.mpr ⟨s, hs, hxx⟩)
            rw [Bool.and_eq_true, beq_iff_eq, beq_iff_eq] at hfa
            exact not_and_or.mp hfa
          · exact hkey r hr' s (List.mem_append_left _ hs)

theorem stageLoop_err_of_mem {α : Type} (bkey ikey : α → Int) (mk : Json → Except String α) :
    ∀ (js : List Json) (acc : List α) (n : Nat) (j : Json), j ∈ js → (∃ e, mk j = .error e) →
      ∃ e, stageLoop bkey ikey mk js acc n = .error e := by
  intro js
  induction js with
  | nil =>
    intro acc n j hj _
    simp at hj
  | cons j' js ih =>
    intro acc n j hj hex
    obtain ⟨e, he⟩ := hex
    rcases List.mem_cons.mp hj with rfl | hmem
    · exact ⟨e, by simp [stageLoop, he]⟩
    · cases hmk : mk j' with
      | error e' => exact ⟨e', by simp [stageLoop, hmk]⟩
      | ok row =>
        by_cases hconf : (acc.any (fun s => bkey s == bkey row && ikey s == ikey row)) = true
        · obtain ⟨e2, he2⟩ := ih acc n j hmem ⟨e, he⟩
          exact ⟨e2, by simp [stageLoop, hmk, hconf, he2]⟩
        · obtain ⟨e2, he2⟩ := ih (acc ++ [row]) (n + 1) j hmem ⟨e, he⟩
          rw [Bool.not_eq_true] at hconf
          exact ⟨e2, by simp [stageLoop, hmk, hconf, he2]⟩

theorem stageLoop_first_wins {α : Type} (bkey ikey : α → Int) (mk : Json → Except String α) :
    ∀ (cs₁ : List Json) (c : Json) (cs₂ : List Json) (acc : List α) (n : Nat)
      (res : List α) (nfin : Nat) (row : α),
      stageLoop bkey ikey mk (cs₁ ++ c :: cs₂) acc n = .ok (res, nfin) →
      mk c = .ok row →
      (∀ c' ∈ cs₁, ∀ row', mk c' = .ok row' → bkey row' ≠ bkey row ∨ ikey row' ≠ ikey row) →
      (∀ s ∈ acc, bkey s ≠ bkey row ∨ ikey s ≠ ikey row) →
      row ∈ res := by
  intro cs₁
  induction cs₁ with
  | nil =>
    intro c cs₂ acc n res nfin row h hmk hfirst hacc
    rw [List.nil_append] at h
    simp only [stageLoop, hmk] at h
    have hconf : (acc.any (fun s => bkey s == bkey row && ikey s == ikey row)) = false := by
      rw [List.any_eq_false]
      intro s hs
      have := hacc s hs
      simp only [Bool.and_eq_true, beq_iff_eq, not_and_or]
      tauto
    rw [hconf] at h
    simp only [Bool.false_eq_true, if_false] at h
    obtain ⟨extra, he, -, -, -, -⟩ :=
      stageLoop_ok_spec bkey ikey mk cs₂ (acc ++ [row]) (n + 1) res nfin h
    rw [he]
    simp
  | cons c' cs₁ ih =>
    intro c cs₂ acc n res nfin row h hmk hfirst hacc
    rw [List.cons_append] at h
    simp only [stageLoop] at h
    split at h
    · simp at h
    · rename_i row' hmk'
      split at h
      · exact ih c cs₂ acc n res nfin row h hmk
          (fun x hx => hfirst x (List.mem_cons_of_mem _ hx)) hacc
      · refine ih c cs₂ (acc ++ [row']) (n + 1) res nfin row h hmk
          (fun x hx => hfirst x (List.mem_cons_of_mem _ hx)) ?_
        intro s hs
        rcases List.mem_append.mp hs with hs' | hs'
        · exact hacc s hs'
        · have : s = row' := by simpa using hs'
          subst this
          exact hfirst c' (List.mem_cons_self _ _) s hmk'

theorem candClienteRow_batch (b : Int) (j : Json) (r : TempCliente)
    (h : candClienteRow b j = .ok r) : r.batch_id = b := by
  unfold candClienteRow at h
  repeat' split at h
  all_goals cases h
  all_goals rfl

theorem candPedidoRow_batch (b : Int) (j : Json) (r : TempPedido)
    (h : candPedidoRow b j = .ok r) : r.batch_id = b := by
  unfold candPedidoRow at h
  repeat' split at h
  all_goals cases h
  all_goals rfl

theorem candClienteRow_missing (b : Int) (f : List (String × Json))
    (hmiss : jget f "id" = none ∨ jget f "nome" = none ∨ jget f "email" = none) :
    ∃ e, candClienteRow b (Json.obj f) = .error e := by
  rcases hmiss with h | h | h
  · exact ⟨_, by simp only [candClienteRow]; rw [h]⟩
  · cases hid : jget f "id" with
    | none => exact ⟨_, by simp only [candClienteRow]; rw [hid]⟩
    | some v =>
      cases v with
      | num i => exact ⟨_, by simp only [candClienteRow]; rw [hid, h]⟩
      | null => exact ⟨_, by simp only [candClienteRow]; rw [hid]⟩
      | bool x => exact ⟨_, by simp only [candClienteRow]; rw [hid]⟩
      | str s => exact ⟨_, by simp only [candClienteRow]; rw [hid]⟩
      | arr l => exact ⟨_, by simp only [candClienteRow]; rw [hid]⟩
      | obj g => exact ⟨_, by simp only [candClienteRow]; rw [hid]⟩
  · cases hid : jget f "id" with
    | none => exact ⟨_, by simp only [candClienteRow]; rw [hid]⟩
    | some v =>
      cases v with
      | num i =>
        cases hnm : jget f "nome" with
        | none => exact ⟨_, by simp only [candClienteRow]; rw [hid, hnm]⟩
        | some w =>
          cases w with
          | str s => exact ⟨_, by simp only [candClienteRow]; rw [hid, hnm, h]⟩
          | null => exact ⟨_, by simp only [candClienteRow]; rw [hid, hnm]⟩
          | bool x => exact ⟨_, by simp only [candClienteRow]; rw [hid, hnm]⟩
          | num m => exact ⟨_, by simp only [candClienteRow]; rw [hid, hnm]⟩
          | arr l => exact ⟨_, by simp only [candClienteRow]; rw [hid, hnm]⟩
          | obj g => exact ⟨_, by simp only [candClienteRow]; rw [hid, hnm]⟩
      | null => exact ⟨_, by simp only [candClienteRow]; rw [hid]⟩
      | bool x => exact ⟨_, by simp only [candClienteRow]; rw [hid]⟩
      | str s => exact ⟨_, by simp only [candClienteRow]; rw [hid]⟩
      | arr l => exact ⟨_, by simp only [candClienteRow]; rw [hid]⟩
      | obj g => exact ⟨_, by simp only [candClienteRow]; rw [hid]⟩

theorem insertPedidosLoop_mem (cl : List Cliente) :
    ∀ (rs : List TempPedido) (pd : List Pedido) (n : Nat) (pd1 : List Pedido) (np : Nat),
      insertPedidosLoop cl rs pd n = .ok (pd1, np) →
      ∀ p ∈ pd1, p ∈ pd ∨ ∃ c ∈ cl, p.cliente_id = some c.id := by
  intro rs
  induction rs with
  | nil =>
    intro pd n pd1 np h p hp
    simp only [insertPedidosLoop, Except.ok.injEq, Prod.mk.injEq] at h
    obtain ⟨h1, -⟩ := h
    subst h1
    exact Or.inl hp
  | cons r rs ih =>
    intro pd n pd1 np h p hp
    simp only [insertPedidosLoop] at h
    split at h
    · exact ih pd n pd1 np h p hp
    · rename_i cid hcid
      split at h
      · rename_i hres
        split at h
        · exact ih pd n pd1 np h p hp
        · split at h
          · simp at h
          · rename_i dp hdp
            rcases ih _ _ _ _ h p hp with hmem | hex
            · rcases List.mem_append.mp hmem with h' | h'
              · exact Or.inl h'
              · have hpeq : p = { id := r.id, cliente_id := some cid, data_pedido := dp,
                                  item := r.item, valor := r.valor } := by simpa using h'
                obtain ⟨c, hc, hcid2⟩ := List.any_eq_true.mp hres
                rw [beq_iff_eq] at hcid2
                refine Or.inr ⟨c, hc, ?_⟩
                rw [hpeq, hcid2]
            · exact Or.inr hex
      · exact ih pd n pd1 np h p hp

theorem insertPedidosLoop_count (cl : List Cliente) :
    ∀ (rs : List TempPedido) (pd : List Pedido) (n : Nat) (pd1 : List Pedido) (np : Nat),
      insertPedidosLoop cl rs pd n = .ok (pd1, np) →
      np ≤ n + (rs.filter (resolvesCliente cl)).length := by
  intro rs
  induction rs with
  | nil =>
    intro pd n pd1 np h
    simp only [insertPedidosLoop, Except.ok.injEq, Prod.mk.injEq] at h
    obtain ⟨-, h2⟩ := h
    subst h2
    simp
  | cons r rs ih =>
    intro pd n pd1 np h
    simp only [insertPedidosLoop] at h
    split at h
    · rename_i hcid
      have hr : resolvesCliente cl r = false := by simp [resolvesCliente, hcid]
      have := ih pd n pd1 np h
      simpa [List.filter_cons, hr] using this
    · rename_i cid hcid
      split at h
      · rename_i hres
        have hr : resolvesCliente cl r = true := by simp [resolvesCliente, hcid, hres]
        split at h
        · have := ih pd n pd1 np h
          simp only [List.filter_cons, hr, if_true, List.length_cons]
          omega
        · split at h
          · simp at h
          · have := ih _ _ _ _ h
            simp only [List.filter_cons, hr, if_true, List.length_cons]
            omega
      · rename_i hres
        have hr : resolvesCliente cl r = false := by
          rw [Bool.not_eq_true] at hres
          simp [resolvesCliente, hcid, hres]
        have := ih pd n pd1 np h
        simpa [List.filter_cons, hr] using this

theorem filter_not_filter {α : Type} (p : α → Bool) (l : List α) :
    (l.filter (fun a => !(p a))).filter p = [] := by
  induction l with
  | nil => rfl
  | cons a l ih =>
    by_cases hp : p a = true
    · simp [List.filter_cons, hp, ih]
    · rw [Bool.not_eq_true] at hp
      simp [List.filter_cons, hp, ih]

theorem find_update_status (l : List RawImport) (i : Int) (st : String) :
    ∀ reg, l.find? (fun r => r.id == i) = some reg →
      (l.map (fun r => if r.id == i then { r with status := st } else r)).find?
          (fun r => r.id == i) = some { reg with status := st } := by
  induction l with
  | nil => intro reg h; simp at h
  | cons a l ih =>
    intro reg h
    by_cases ha : (a.id == i) = true
    · simp only [List.find?_cons, ha] at h
      injection h with h'
      subst h'
      simp only [List.map_cons]
      rw [if_pos ha, List.find?_cons]
      have ha2 : (({ a with status := st } : RawImport).id == i) = true := ha
      rw [ha2]
    · rw [Bool.not_eq_true] at ha
      simp only [List.find?_cons, ha] at h
      simp only [List.map_cons]
      rw [if_neg (by simp [ha]), List.find?_cons, ha]
      exact ih reg h

theorem stage_ok_spec (db : DB) (idr : Int) (db1 : DB) (nc np : Nat)
    (h : ui_processar_dados_importados db idr = (db1, .ok nc np)) :
    ∃ reg doc tc1 tp1,
      db.dados_importados.find? (fun r => r.id == idr) = some reg ∧
      reg.status = "NOVO" ∧
      reg.dado_json = Json.obj doc ∧
      (find_data_in_json doc).isEmpty = false ∧
      stageLoop (fun r => r.batch_id) (fun r => r.id) (candClienteRow idr)
        (jgetList (find_data_in_json doc) "clientes")
        (db.temp_clientes.filter (fun r => !(r.batch_id == idr))) 0 = .ok (tc1, nc) ∧
      stageLoop (fun r => r.batch_id) (fun r => r.id) (candPedidoRow idr)
        (jgetList (find_data_in_json doc) "pedidos")
        (db.temp_pedidos.filter (fun r => !(r.batch_id == idr))) 0 = .ok (tp1, np) ∧
      db1 = { db with
              temp_clientes := tc1,
              temp_pedidos := tp1,
              dados_importados := db.dados_importados.map (fun r =>
                if r.id == idr then { r with status := "EM_CONFIRMACAO" } else r) } := by
  unfold ui_processar_dados_importados at h
  split at h
  · simp at h
  · rename_i reg hreg
    split at h
    · simp at h
    · rename_i hstat
      rw [not_not] at hstat
      split at h
      · rename_i doc hdoc
        split at h
        · simp at h
        · rename_i hie
          rw [Bool.not_eq_true] at hie
          split at h
          · simp at h
          · rename_i p1 tc1 nc1 hloop1
            split at h
            · simp at h
            · rename_i p2 tp1 np1 hloop2
              simp only [Prod.mk.injEq, StageResult.ok.injEq] at h
              obtain ⟨hdb, hnc, hnp⟩ := h
              subst hnc; subst hnp
              exact ⟨reg, doc, tc1, tp1, hreg, hstat, hdoc, hie, hloop1, hloop2, hdb.symm⟩
      all_goals simp at h

theorem promote_ok_spec (db : DB) (b : Int) (db1 : DB) (nc np : Nat)
    (h : confirmar_lote db b = (db1, .ok nc np)) :
    ∃ cl1 pd1,
      insertClientesLoop (db.temp_clientes.filter (fun r => r.batch_id == b))
        db.clientes 0 = .ok (cl1, nc) ∧
      insertPedidosLoop cl1 (db.temp_pedidos.filter (fun r => r.batch_id == b))
        db.pedidos 0 = .ok (pd1, np) ∧
      db1 = { clientes := cl1,
              pedidos := pd1,
              dados_importados := db.dados_importados.map (fun r =>
                if r.id == b then { r with status := "PROCESSADO" } else r),
              temp_clientes := db.temp_clientes.filter (fun r => !(r.batch_id == b)),
              temp_pedidos := db.temp_pedidos.filter (fun r => !(r.batch_id == b)) } := by
  unfold confirmar_lote at h
  split at h
  · simp at h
  · rename_i p1 cl1 nc1 hloop1
    split at h
    · simp at h
    · rename_i p2 pd1 np1 hloop2
      simp only [Prod.mk.injEq, PromoteResult.ok.injEq] at h
      obtain ⟨hdb, hnc, hnp⟩ := h
      subst hnc; subst hnp
      exact ⟨cl1, pd1, hloop1, hloop2, hdb.symm⟩

theorem ui_confirmar_ok (db : DB) (b : Int) (db1 : DB) (nc np : Nat)
    (h : ui_confirmar_dados_processados db b = (db1, .ok nc np)) :
    confirmar_lote db b = (db1, .ok nc np) := by
  unfold ui_confirmar_dados_processados at h
  split at h
  · simp at h
  · exact h

/-! The claims. -/

/-- C1: promotion never inserts an order whose `cliente_id` is absent from
the customer table as it stands after the batch's customers were inserted.
Every order row present after a committed promotion is either a pre-existing
row or references a customer present after the promotion (pre-existing or
newly promoted in the same batch); and the number of newly inserted orders
is bounded by the staged orders of the batch whose `cliente_id` resolves —
unresolvable orders are excluded, not inserted, and cause no error. -/
theorem promotion_referential_integrity (db : DB) (b : Int) (db1 : DB) (nc np : Nat)
    (h : ui_confirmar_dados_processados db b = (db1, .ok nc np)) :
    (∀ p ∈ db1.pedidos, p ∈ db.pedidos ∨ ∃ c ∈ db1.clientes, p.cliente_id = some c.id) ∧
    np ≤ ((db.temp_pedidos.filter (fun r => r.batch_id == b)).filter
            (resolvesCliente db1.clientes)).length := by
  obtain ⟨cl1, pd1, hcl, hpd, hdb⟩ :=
    promote_ok_spec db b db1 nc np (ui_confirmar_ok db b db1 nc np h)
  have hcl1 : db1.clientes = cl1 := by rw [hdb]
  have hpd1 : db1.pedidos = pd1 := by rw [hdb]
  constructor
  · intro p hp
    rw [hpd1] at hp
    rcases insertPedidosLoop_mem cl1 _ _ _ _ _ hpd p hp with h1 | ⟨c, hc, hcid⟩
    · exact Or.inl h1
    · refine Or.inr ⟨c, ?_, hcid⟩
      rw [hcl1]
      exact hc
  · have hcount := insertPedidosLoop_count cl1 _ _ _ _ _ hpd
    rw [hcl1]
    simpa using hcount

/-- Witness for C1: on `dbC1` the promotion commits with 1 customer and 2
orders; the referential-integrity invariant holds on the result, and only
the two staged orders whose customer resolves were counted. -/
theorem promotion_referential_integrity_witness :
    (ui_confirmar_dados_processados dbC1 1).2 = .ok 1 2 ∧
    ((∀ p ∈ (ui_confirmar_dados_processados dbC1 1).1.pedidos,
        p ∈ dbC1.pedidos ∨ ∃ c ∈ (ui_confirmar_dados_processados dbC1 1).1.clientes,
          p.cliente_id = some c.id) ∧
      2 ≤ ((dbC1.temp_pedidos.filter (fun r => r.batch_id == 1)).filter
            (resolvesCliente (ui_confirmar_dados_processados dbC1 1).1.clientes)).length) :=
  ⟨rfl, promotion_referential_integrity dbC1 1 _ 1 2 rfl⟩

/-- Counterexample to C2 as stated: in `dbC2` batch 2 is in review, so the
confirmation listing is non-empty and the operator can type a batch id; the
typed record 1 has status `NOVO` (not `EM_CONFIRMACAO`), yet confirming
batch id 1 is *not* rejected — the promotion commits (reporting 0/0) and
overwrites record 1's status with `PROCESSADO`: the source never checks the
typed id's status on this path. -/
theorem promotion_status_guard_counterexample :
    (dbC2.dados_importados.filter (fun r => r.status == "EM_CONFIRMACAO")).isEmpty = false ∧
    dbC2.dados_importados.find? (fun r => r.id == 1) = some ⟨1, Json.null, "NOVO"⟩ ∧
    (ui_confirmar_dados_processados dbC2 1).2 = .ok 0 0 ∧
    (ui_confirmar_dados_processados dbC2 1).1.dados_importados
      = [⟨1, Json.null, "PROCESSADO"⟩, ⟨2, Json.null, "EM_CONFIRMACAO"⟩] :=
  ⟨rfl, rfl, rfl, rfl⟩

/-- C2 amended: staging is guarded — a record whose status is not `NOVO` is
rejected with no state change.  Promotion has only the listing guard: when no
record is in `EM_CONFIRMACAO` the operation returns before anything can be
typed, changing nothing; but the typed batch id's own status is never
checked — a committed promotion unconditionally rewrites the typed record's
status to `PROCESSADO`, whatever it was before. -/
theorem status_transition_guards :
    (∀ (db : DB) (idr : Int) (reg : RawImport),
      db.dados_importados.find? (fun r => r.id == idr) = some reg →
      reg.status ≠ "NOVO" →
      ui_processar_dados_importados db idr = (db, .wrongStatus reg.status)) ∧
    (∀ (db : DB) (b : Int),
      (db.dados_importados.filter (fun r => r.status == "EM_CONFIRMACAO")).isEmpty = true →
      ui_confirmar_dados_processados db b = (db, .nothingWaiting)) ∧
    (∀ (db : DB) (b : Int) (db1 : DB) (nc np : Nat),
      ui_confirmar_dados_processados db b = (db1, .ok nc np) →
      ∀ reg ∈ db.dados_importados, reg.id = b →
        ({ reg with status := "PROCESSADO" } : RawImport) ∈ db1.dados_importados) := by
  refine ⟨?_, ?_, ?_⟩
  · intro db idr reg hfind hstat
    unfold ui_processar_dados_importados
    rw [hfind]
    simp [hstat]
  · intro db b hempty
    unfold ui_confirmar_dados_processados
    rw [hempty]
    simp
  · intro db b db1 nc np h reg hreg hid
    obtain ⟨cl1, pd1, -, -, hdb⟩ :=
      promote_ok_spec db b db1 nc np (ui_confirmar_ok db b db1 nc np h)
    rw [hdb]
    have hfr : ({ reg with status := "PROCESSADO" } : RawImport)
        = (fun r => if r.id == b then { r with status := "PROCESSADO" } else r) reg := by
      simp [hid]
    rw [hfr]
    exact List.mem_map_of_mem _ hreg

/-- Witness for the amended C2: staging a `PROCESSADO` record is rejected
without state change; promoting with nothing in review returns without
acting; and promoting `dbC2`'s typed `NOVO` record while batch 2 is in
review still stamps it `PROCESSADO`. -/
theorem status_transition_guards_witness :
    ui_processar_dados_importados dbC2g 1 = (dbC2g, .wrongStatus "PROCESSADO") ∧
    ui_confirmar_dados_processados dbC2g 1 = (dbC2g, .nothingWaiting) ∧
    ({ id := 1, dado_json := Json.null, status := "PROCESSADO" } : RawImport)
      ∈ (ui_confirmar_dados_processados dbC2 1).1.dados_importados := by
  refine ⟨?_, ?_, ?_⟩
  · exact status_transition_guards.1 dbC2g 1 ⟨1, Json.null, "PROCESSADO"⟩ rfl (by decide)
  · exact status_transition_guards.2.1 dbC2g 1 rfl
  · exact status_transition_guards.2.2 dbC2 1 _ 0 0 rfl ⟨1, Json.null, "NOVO"⟩
      (by simp [dbC2]) rfl

/-- C3: promotion is idempotent — after a committed run of the promotion
transaction on a batch, running the transaction for the same batch id again
commits reporting 0 new customers and 0 new orders and leaves the customer
and order tables unchanged (the first run deleted the batch's staged rows,
so nothing is left to insert).  Stated over the promotion transaction
`confirmar_lote`; the surrounding listing guard of
`ui_confirmar_dados_processados` decides only whether the operator can reach
the confirmation prompt again (it can whenever some batch is still in
review), so whenever the re-promotion runs at all it behaves as stated. -/
theorem promotion_idempotent (db : DB) (b : Int) (db1 : DB) (nc np : Nat)
    (h : confirmar_lote db b = (db1, .ok nc np)) :
    (confirmar_lote db1 b).2 = .ok 0 0 ∧
    (confirmar_lote db1 b).1.clientes = db1.clientes ∧
    (confirmar_lote db1 b).1.pedidos = db1.pedidos := by
  obtain ⟨cl1, pd1, -, -, hdb⟩ := promote_ok_spec db b db1 nc np h
  have htc : db1.temp_clientes.filter (fun r => r.batch_id == b) = [] := by
    rw [hdb]
    exact filter_not_filter _ _
  have htp : db1.temp_pedidos.filter (fun r => r.batch_id == b) = [] := by
    rw [hdb]
    exact filter_not_filter _ _
  unfold confirmar_lote
  rw [htc, htp]
  simp [insertClientesLoop, insertPedidosLoop]

/-- Witness for C3: promoting `dbC3` commits with counts (1, 1); re-running
the promotion transaction for the same batch id reports (0, 0) and changes
neither table. -/
theorem promotion_idempotent_witness :
    (confirmar_lote dbC3 1).2 = .ok 1 1 ∧
    ((confirmar_lote (confirmar_lote dbC3 1).1 1).2 = .ok 0 0 ∧
     (confirmar_lote (confirmar_lote dbC3 1).1 1).1.clientes
        = (confirmar_lote dbC3 1).1.clientes ∧
     (confirmar_lote (confirmar_lote dbC3 1).1 1).1.pedidos
        = (confirmar_lote dbC3 1).1.pedidos) :=
  ⟨rfl, promotion_idempotent dbC3 1 _ 1 1 rfl⟩

/-- Counterexample to C4 as stated: staging `dbC4`'s record succeeds once
(counts 1/0), but the second staging attempt does *not* succeed — the source
rejects it because the record's status is now `EM_CONFIRMACAO`, no longer
`NOVO`. -/
theorem staging_rerun_counterexample :
    (ui_processar_dados_importados dbC4 1).2 = .ok 1 0 ∧
    (ui_processar_dados_importados (ui_processar_dados_importados dbC4 1).1 1)
      = ((ui_processar_dados_importados dbC4 1).1, .wrongStatus "EM_CONFIRMACAO") :=
  ⟨rfl, rfl⟩

/-- C4 amended: after a committed staging, a second staging of the same
record is rejected by the `NOVO`-status guard with no state change; and a
committed staging never leaves duplicate staged rows for the same
`(batch_id, id)` key — within the batch, staged customer ids and staged
order ids are pairwise distinct. -/
theorem staging_rerun_guarded (db : DB) (idr : Int) (db1 : DB) (nc np : Nat)
    (h : ui_processar_dados_importados db idr = (db1, .ok nc np)) :
    ui_processar_dados_importados db1 idr = (db1, .wrongStatus "EM_CONFIRMACAO") ∧
    List.Pairwise (fun a b => a.id ≠ b.id)
      (db1.temp_clientes.filter (fun r => r.batch_id == idr)) ∧
    List.Pairwise (fun a b => a.id ≠ b.id)
      (db1.temp_pedidos.filter (fun r => r.batch_id == idr)) := by
  obtain ⟨reg, doc, tc1, tp1, hfind, hstat, hdoc, hie, hl1, hl2, hdb⟩ :=
    stage_ok_spec db idr db1 nc np h
  have hfind1 : db1.dados_importados.find? (fun r => r.id == idr)
      = some ({ reg with status := "EM_CONFIRMACAO" }) := by
    rw [hdb]
    exact find_update_status _ _ _ reg hfind
  have htc : db1.temp_clientes = tc1 := by rw [hdb]
  have htp : db1.temp_pedidos = tp1 := by rw [hdb]
  refine ⟨?_, ?_, ?_⟩
  · unfold ui_processar_dados_importados
    rw [hfind1]
    simp
  · rw [htc]
    obtain ⟨extra, he, -, hm, hp, -⟩ := stageLoop_ok_spec _ _ _ _ _ _ _ _ hl1
    have hbatch : ∀ r ∈ extra, r.batch_id = idr := by
      intro r hr
      obtain ⟨j, -, hj⟩ := hm r hr
      exact candClienteRow_batch idr j r hj
    rw [he, List.filter_append, filter_not_filter, List.nil_append,
      List.filter_eq_self.mpr (fun r hr => by simp [hbatch r hr])]
    refine hp.imp_of_mem ?_
    intro a b ha hb hab
    rcases hab with h1 | h1
    · exact absurd (by rw [hbatch a ha, hbatch b hb]) h1
    · exact h1
  · rw [htp]
    obtain ⟨extra, he, -, hm, hp, -⟩ := stageLoop_ok_spec _ _ _ _ _ _ _ _ hl2
    have hbatch : ∀ r ∈ extra, r.batch_id = idr := by
      intro r hr
      obtain ⟨j, -, hj⟩ := hm r hr
      exact candPedidoRow_batch idr j r hj
    rw [he, List.filter_append, filter_not_filter, List.nil_append,
      List.filter_eq_self.mpr (fun r hr => by simp [hbatch r hr])]
    refine hp.imp_of_mem ?_
    intro a b ha hb hab
    rcases hab with h1 | h1
    · exact absurd (by rw [hbatch a ha, hbatch b hb]) h1
    · exact h1

/-- Witness for the amended C4: staging `dbC4` commits with counts (1, 0);
the second attempt is rejected with `wrongStatus` and no state change, and
the staged rows of the batch have pairwise-distinct ids. -/
theorem staging_rerun_guarded_witness :
    (ui_processar_dados_importados dbC4 1).2 = .ok 1 0 ∧
    (ui_processar_dados_importados (ui_processar_dados_importados dbC4 1).1 1
        = ((ui_processar_dados_importados dbC4 1).1, .wrongStatus "EM_CONFIRMACAO") ∧
      List.Pairwise (fun a b => a.id ≠ b.id)
        ((ui_processar_dados_importados dbC4 1).1.temp_clientes.filter
          (fun r => r.batch_id == 1)) ∧
      List.Pairwise (fun a b => a.id ≠ b.id)
        ((ui_processar_dados_importados dbC4 1).1.temp_pedidos.filter
          (fun r => r.batch_id == 1))) :=
  ⟨rfl, staging_rerun_guarded dbC4 1 _ 1 0 rfl⟩

/-- Counterexample to C5 as stated: in `dbC5` the document nests a `record`
wrapper object that contains neither a `clientes` nor a `pedidos` collection,
so extraction finds neither collection — yet staging does not fail: it
commits reporting 0/0 and moves the record to `EM_CONFIRMACAO`, because the
source only raises when the extracted dict is *empty*. -/
theorem structural_error_counterexample :
    hasKey (find_data_in_json [("record", Json.obj [("foo", Json.num 1)])]) "clientes" = false ∧
    hasKey (find_data_in_json [("record", Json.obj [("foo", Json.num 1)])]) "pedidos" = false ∧
    (ui_processar_dados_importados dbC5 1).2 = .ok 0 0 ∧
    (ui_processar_dados_importados dbC5 1).1.dados_importados
      = [⟨1, Json.obj [("record", Json.obj [("foo", Json.num 1)])], "EM_CONFIRMACAO"⟩] :=
  ⟨rfl, rfl, rfl, rfl⟩

/-- C5 amended: when extraction returns an *empty* result, the confirmed
staging attempt fails with the structural `ValueError` (raised before any
statement of the transaction ran) and mutates no state at all. -/
theorem empty_extraction_structural_error (db : DB) (idr : Int) (reg : RawImport)
    (doc : List (String × Json))
    (hfind : db.dados_importados.find? (fun r => r.id == idr) = some reg)
    (hstat : reg.status = "NOVO")
    (hdoc : reg.dado_json = Json.obj doc)
    (hempty : find_data_in_json doc = []) :
    ui_processar_dados_importados db idr = (db, .valueError) := by
  unfold ui_processar_dados_importados
  rw [hfind]
  simp [hstat, hdoc, hempty]

/-- Witness for the amended C5: `dbC5w`'s document yields an empty
extraction, and its staging fails with `valueError`, returning the database
unchanged. -/
theorem empty_extraction_structural_error_witness :
    find_data_in_json [("foo", Json.num 1)] = [] ∧
    ui_processar_dados_importados dbC5w 1 = (dbC5w, .valueError) :=
  ⟨rfl, empty_extraction_structural_error dbC5w 1 ⟨1, Json.obj [("foo", Json.num 1)], "NOVO"⟩
    [("foo", Json.num 1)] rfl rfl rfl rfl⟩

/-- C6: staging is all-or-nothing — whenever the confirmed staging attempt
ends in the structural `ValueError` or in a rolled-back exception, the
returned database state is exactly the input state: no staged rows were
created or removed and the record kept its prior status. -/
theorem staging_all_or_nothing (db : DB) (idr : Int) (db1 : DB) (r : StageResult)
    (h : ui_processar_dados_importados db idr = (db1, r))
    (herr : r = .valueError ∨ r = .exceptionRollback) :
    db1 = db := by
  unfold ui_processar_dados_importados at h
  repeat' split at h
  all_goals
    injection h with h1 h2
    first
      | exact h1.symm
      | (rw [← h2] at herr; rcases herr with h3 | h3 <;> cases h3)

/-- Witness for C6: staging `dbC6` (whose candidate list holds a non-object)
raises and rolls back, leaving the state untouched. -/
theorem staging_all_or_nothing_witness :
    (ui_processar_dados_importados dbC6 1).2 = .exceptionRollback ∧
    (ui_processar_dados_importados dbC6 1).1 = dbC6 :=
  ⟨rfl, staging_all_or_nothing dbC6 1 _ _ rfl (Or.inr rfl)⟩

/-- C7: `_find_data_in_json` follows the fixed resolution order — a root
containing a `clientes` or `pedidos` key is returned itself; otherwise a root
whose `record` key holds an object yields that nested object; otherwise the
result is the empty dict. -/
theorem extraction_resolution_order (d : List (String × Json)) :
    ((hasKey d "clientes" || hasKey d "pedidos") = true → find_data_in_json d = d) ∧
    ((hasKey d "clientes" || hasKey d "pedidos") = false →
      ∀ inner, lookupKey d "record" = some (Json.obj inner) → find_data_in_json d = inner) ∧
    ((hasKey d "clientes" || hasKey d "pedidos") = false →
      (∀ inner, lookupKey d "record" ≠ some (Json.obj inner)) → find_data_in_json d = []) := by
  refine ⟨?_, ?_, ?_⟩
  · intro hk
    unfold find_data_in_json
    rw [if_pos hk]
  · intro hk inner hrec
    unfold find_data_in_json
    rw [if_neg (by simp [hk]), hrec]
  · intro hk hrec
    unfold find_data_in_json
    rw [if_neg (by simp [hk])]
    cases hl : lookupKey d "record" with
    | none => rfl
    | some v =>
      cases v with
      | obj inner => exact absurd hl (hrec inner)
      | null => rfl
      | bool x => rfl
      | num n => rfl
      | str s => rfl
      | arr l => rfl

/-- Witness for C7: each of the three resolution branches exercised on a
concrete document. -/
theorem extraction_resolution_order_witness :
    find_data_in_json [("clientes", Json.arr [])] = [("clientes", Json.arr [])] ∧
    find_data_in_json [("record", Json.obj [("x", Json.num 1)])] = [("x", Json.num 1)] ∧
    find_data_in_json [("foo", Json.num 1)] = [] := by
  refine ⟨?_, ?_, ?_⟩
  · exact (extraction_resolution_order [("clientes", Json.arr [])]).1 rfl
  · exact (extraction_resolution_order [("record", Json.obj [("x", Json.num 1)])]).2.1 rfl
      [("x", Json.num 1)] rfl
  · refine (extraction_resolution_order [("foo", Json.num 1)]).2.2 rfl ?_
    intro inner hin
    simp [lookupKey] at hin

/-- C8: within one batch, duplicate declared ids are silently deduplicated.
On any committed staging, the reported counts equal the number of staged rows
of the batch after deduplication, the staged customer rows have pairwise
distinct ids, and the first candidate declaring a given id is the row that
gets staged (later occurrences are skipped, not errors). -/
theorem staging_dedup_first_wins (db : DB) (idr : Int) (db1 : DB) (nc np : Nat)
    (h : ui_processar_dados_importados db idr = (db1, .ok nc np)) :
    nc = (db1.temp_clientes.filter (fun r => r.batch_id == idr)).length ∧
    np = (db1.temp_pedidos.filter (fun r => r.batch_id == idr)).length ∧
    (∀ (reg : RawImport) (doc : List (String × Json)) (cs₁ cs₂ : List Json) (c : Json)
        (row : TempCliente),
      db.dados_importados.find? (fun r => r.id == idr) = some reg →
      reg.dado_json = Json.obj doc →
      jgetList (find_data_in_json doc) "clientes" = cs₁ ++ c :: cs₂ →
      candClienteRow idr c = .ok row →
      (∀ c' ∈ cs₁, ∀ row', candClienteRow idr c' = .ok row' → row'.id ≠ row.id) →
      row ∈ db1.temp_clientes) := by
  obtain ⟨reg, doc, tc1, tp1, hfind, hstat, hdoc, hie, hl1, hl2, hdb⟩ :=
    stage_ok_spec db idr db1 nc np h
  have htc : db1.temp_clientes = tc1 := by rw [hdb]
  have htp : db1.temp_pedidos = tp1 := by rw [hdb]
  obtain ⟨extra, he, hn, hm, -, -⟩ := stageLoop_ok_spec _ _ _ _ _ _ _ _ hl1
  have hbatch : ∀ r ∈ extra, r.batch_id = idr := by
    intro r hr
    obtain ⟨j, -, hj⟩ := hm r hr
    exact candClienteRow_batch idr j r hj
  have hfc : db1.temp_clientes.filter (fun r => r.batch_id == idr) = extra := by
    rw [htc, he, List.filter_append, filter_not_filter, List.nil_append]
    exact List.filter_eq_self.mpr (fun r hr => by simp [hbatch r hr])
  obtain ⟨extrap, hep, hnp2, hmp, -, -⟩ := stageLoop_ok_spec _ _ _ _ _ _ _ _ hl2
  have hbatchp : ∀ r ∈ extrap, r.batch_id = idr := by
    intro r hr
    obtain ⟨j, -, hj⟩ := hmp r hr
    exact candPedidoRow_batch idr j r hj
  have hfp : db1.temp_pedidos.filter (fun r => r.batch_id == idr) = extrap := by
    rw [htp, hep, List.filter_append, filter_not_filter, List.nil_append]
    exact List.filter_eq_self.mpr (fun r hr => by simp [hbatchp r hr])
  refine ⟨?_, ?_, ?_⟩
  · rw [hfc, hn]
    simp
  · rw [hfp, hnp2]
    simp
  · intro reg2 doc2 cs₁ cs₂ c row hfind2 hdoc2 hsplit hrow hne
    rw [hfind2] at hfind
    injection hfind with hreg
    rw [← hreg] at hdoc
    rw [hdoc2] at hdoc
    injection hdoc with hdocs
    rw [← hdocs] at hl1
    rw [hsplit] at hl1
    rw [htc]
    refine stageLoop_first_wins _ _ _ cs₁ c cs₂ _ _ _ _ row hl1 hrow ?_ ?_
    · intro c' hc' row' hrow'
      exact Or.inr (by
        have hb1 := candClienteRow_batch idr c' row' hrow'
        exact hne c' hc' row' hrow')
    · intro s hs
      refine Or.inl ?_
      have hsmem := List.mem_filter.mp hs
      have hsb : ¬(s.batch_id = idr) := by
        have := hsmem.2
        simpa using this
      have hrowb : row.batch_id = idr := candClienteRow_batch idr c row hrow
      rw [hrowb]
      exact hsb

/-- Witness for C8: staging `dbC8` (two candidates both declaring id 1)
commits with staged count 1; the count matches the single staged row, and the
row staged for id 1 is the *first* candidate (`nome` "A"). -/
theorem staging_dedup_first_wins_witness :
    (ui_processar_dados_importados dbC8 1).2 = .ok 1 0 ∧
    1 = ((ui_processar_dados_importados dbC8 1).1.temp_clientes.filter
          (fun r => r.batch_id == 1)).length ∧
    (⟨1, 1, "A", "a", none⟩ : TempCliente)
      ∈ (ui_processar_dados_importados dbC8 1).1.temp_clientes := by
  refine ⟨rfl, ?_, ?_⟩
  · exact (staging_dedup_first_wins dbC8 1 _ 1 0 rfl).1
  · refine (staging_dedup_first_wins dbC8 1 _ 1 0 rfl).2.2
      ⟨1, Json.obj [("clientes", Json.arr [cliA, cliB])], "NOVO"⟩
      [("clientes", Json.arr [cliA, cliB])] [] [cliB] cliA ⟨1, 1, "A", "a", none⟩
      rfl rfl rfl rfl ?_
    intro c' hc' row' hrow'
    exact absurd hc' (List.not_mem_nil c')

/-- C9: the audit logger never aborts its caller — when the append of the
log row fails, the failure is caught inside `log_evento`, reported through
the console fallback, and the function still returns normally with the log
table unchanged. -/
theorem logger_never_aborts_caller (storeAvailable : Bool) (logs : List LogEntry)
    (level message e : String)
    (h : insertLog storeAvailable logs { level := level.toUpper, message := message }
          = .error e) :
    log_evento storeAvailable logs level message = (logs, .fallbackPrinted e) := by
  unfold log_evento
  rw [h]

/-- Witness for C9: with the store unavailable the append fails, and
`log_evento` returns the fallback outcome instead of propagating. -/
theorem logger_never_aborts_caller_witness :
    insertLog false [] { level := "INFO".toUpper, message := "m" }
      = .error "store unavailable" ∧
    log_evento false [] "INFO" "m" = ([], .fallbackPrinted "store unavailable") :=
  ⟨rfl, logger_never_aborts_caller false [] "INFO" "m" "store unavailable" rfl⟩

/-- C10: a malformed candidate row aborts the whole staging. If the candidate
customer list of a fresh (`NOVO`) record contains an object missing its `id`,
`nome` or `email` (NULL in a NOT NULL / primary-key column of
`temp_clientes`), the confirmed staging attempt raises and the transaction is
rolled back: the returned state is exactly the input state — no staged rows
remain for the batch and the record keeps status `NOVO`. -/
theorem malformed_row_aborts_staging (db : DB) (idr : Int) (reg : RawImport)
    (doc f : List (String × Json)) (j : Json)
    (hfind : db.dados_importados.find? (fun r => r.id == idr) = some reg)
    (hstat : reg.status = "NOVO")
    (hdoc : reg.dado_json = Json.obj doc)
    (hne : (find_data_in_json doc).isEmpty = false)
    (hmem : j ∈ jgetList (find_data_in_json doc) "clientes")
    (hj : j = Json.obj f)
    (hmiss : jget f "id" = none ∨ jget f "nome" = none ∨ jget f "email" = none) :
    ui_processar_dados_importados db idr = (db, .exceptionRollback) := by
  obtain ⟨e, he⟩ := candClienteRow_missing idr f hmiss
  obtain ⟨e2, he2⟩ := stageLoop_err_of_mem (fun r => r.batch_id) (fun r => r.id)
    (candClienteRow idr) (jgetList (find_data_in_json doc) "clientes")
    (db.temp_clientes.filter (fun r => !(r.batch_id == idr))) 0 j hmem
    ⟨e, by rw [hj]; exact he⟩
  unfold ui_processar_dados_importados
  rw [hfind]
  simp [hstat, hdoc, hne, he2]

/-- Witness for C10: staging `dbC10`, whose only candidate customer misses
`id` and `email`, raises and rolls back with no state change. -/
theorem malformed_row_aborts_staging_witness :
    ui_processar_dados_importados dbC10 1 = (dbC10, .exceptionRollback) :=
  malformed_row_aborts_staging dbC10 1
    ⟨1, Json.obj [("clientes", Json.arr [Json.obj [("nome", Json.str "A")]])], "NOVO"⟩
    [("clientes", Json.arr [Json.obj [("nome", Json.str "A")]])]
    [("nome", Json.str "A")] (Json.obj [("nome", Json.str "A")])
    rfl rfl rfl rfl
    (show (Json.obj [("nome", Json.str "A")])
        ∈ [Json.obj [("nome", Json.str "A")]] from List.mem_singleton.mpr rfl)
    rfl (Or.inl rfl)

end CrudFatec
